import Mathlib

/-!
Verification development for the document-summarizer repository
(`backend.py`, `utils/file_reader.py`, `utils/pdf_reader.py`).

The Python sources are shallowly embedded below.  Strings are modelled by
Lean `String` (we operate on the underlying `List Char`), Python floats by
`ℚ`, and Python `re.sub` calls by an explicit left-to-right scanner
(`reSubAux`) instantiated with a matcher per pattern.  Fallible operations
(library imports, parser invocations, file existence) are passed in as
explicit parameters, since the Python code branches on them via
`try`/`except`.  `\w` and `\d` character classes and `str.lower` are
modelled over ASCII, which covers every input appearing in the claims.
-/

/-- Python's whitespace class `\s` (ASCII part): space, tab, newline,
carriage return, vertical tab, form feed. -/
def pyWS (c : Char) : Bool :=
  c == ' ' || c == '\t' || c == '\n' || c == '\r' || c == '\x0b' || c == '\x0c'

/-- Python's word-character class `\w` (ASCII part): letters, digits, underscore. -/
def pyWordChar (c : Char) : Bool :=
  c.isAlpha || c.isDigit || c == '_'

/-- Python `str.strip()` on the character list: drop whitespace from both ends. -/
def stripL (l : List Char) : List Char :=
  ((l.dropWhile pyWS).reverse.dropWhile pyWS).reverse

/-- Python `str.strip()` on strings. -/
def pyStripS (s : String) : String := ⟨stripL s.data⟩

/-- Python `str.lower()` (ASCII model). -/
def pyLower (s : String) : String := ⟨s.data.map Char.toLower⟩

/-- Helper for `pyWords`: accumulates the current in-progress word (reversed). -/
def pyWordsAux : Option (List Char) → List Char → List (List Char)
  | none, [] => []
  | some w, [] => [w.reverse]
  | none, c :: cs => if pyWS c then pyWordsAux none cs else pyWordsAux (some [c]) cs
  | some w, c :: cs =>
      if pyWS c then w.reverse :: pyWordsAux none cs else pyWordsAux (some (c :: w)) cs

/-- Python `str.split()` with no argument: maximal runs of non-whitespace. -/
def pyWords (l : List Char) : List (List Char) := pyWordsAux none l

/-- Python `len(s.split())`: the word count used by the quality evaluator. -/
def wordCount (s : String) : Nat := (pyWords s.data).length

/-- Python `sep.split` for a one-character separator, keeping empty pieces
(`"".split('.') == ['']`, `".".split('.') == ['', '']`). -/
def splitOnCharAux (sep : Char) : List Char → List Char → List (List Char)
  | acc, [] => [acc.reverse]
  | acc, c :: cs =>
      if c == sep then acc.reverse :: splitOnCharAux sep [] cs
      else splitOnCharAux sep (c :: acc) cs

/-- Python `s.split(sep)` for a one-character separator. -/
def splitOnChar (sep : Char) (l : List Char) : List (List Char) :=
  splitOnCharAux sep [] l

/-- Python `needle in hay` substring test. -/
def containsL (needle : List Char) : List Char → Bool
  | [] => needle.isEmpty
  | c :: cs => needle.isPrefixOf (c :: cs) || containsL needle cs

/-- Python `needle in hay` on strings. -/
def strContains (hay needle : String) : Bool := containsL needle.data hay.data

/-- Python `s.endswith(suffix)`. -/
def pyEndsWith (s suffix : String) : Bool := suffix.data.isSuffixOf s.data

/-- Python `round` (round-half-to-even) of a rational to an integer. -/
def pyRoundHalfEven (q : ℚ) : ℤ :=
  let f := ⌊q⌋
  let frac := q - f
  if frac < 1/2 then f
  else if 1/2 < frac then f + 1
  else if f % 2 = 0 then f else f + 1

/-- Python `round(q, 1)`: round to one decimal place. -/
def pyRound1 (q : ℚ) : ℚ := (pyRoundHalfEven (q * 10) : ℚ) / 10

/-! ## Quality evaluator (`backend.py`, `evaluate_summary_quality` lines 186-265) -/

/-- The dictionary returned by `evaluate_summary_quality` on its success path
(`backend.py` lines 250-258). -/
structure QualityMetrics where
  quality_score : Nat
  overall_rating : String
  compression_ratio : ℚ
  original_length : Nat
  summary_length : Nat
  feedback : List String
  suggestions : List String
deriving Repr, DecidableEq

/-- `get_improvement_suggestions` (`backend.py` lines 267-285). -/
def get_improvement_suggestions (quality_score : Nat) (compression_ratio : ℚ) :
    List String :=
  (if quality_score < 60 then
    ["Consider regenerating with a different style",
     "Check if the document text is properly extracted"] else []) ++
  (if compression_ratio < 1/20 then
    ["Try 'Detailed' style for more comprehensive summary"] else []) ++
  (if compression_ratio > 2/5 then
    ["Try 'Abstract' style for more concise summary"] else []) ++
  (if quality_score < 40 then
    ["Verify document format is supported",
     "Ensure document contains readable text content"] else [])

/-- `compression_ratio` as computed at `backend.py` line 201:
`summary_length / original_length if original_length > 0 else 0`. -/
def compressionRatio (original_text summary : String) : ℚ :=
  if 0 < wordCount original_text then
    (wordCount summary : ℚ) / (wordCount original_text : ℚ)
  else 0

/-- The keyword list of `backend.py` line 217. -/
def key_indicators : List String :=
  ["conclusion", "summary", "therefore", "thus", "overall", "key", "important", "main"]

/-- The body of `evaluate_summary_quality` (`backend.py` lines 197-258); the
`try` block cannot fault on the operations modelled here, so this is total.
The points are accumulated in source order (compression, key indicators,
structure, length, sentences). -/
def evaluate_summary_quality (original_text summary : String) : QualityMetrics :=
  let original_length := wordCount original_text
  let summary_length := wordCount summary
  let compression_ratio := compressionRatio original_text summary
  -- compression-ratio check (lines 208-214)
  let cPts : Nat :=
    if 1/20 ≤ compression_ratio ∧ compression_ratio ≤ 2/5 then 25 else 0
  let cFb : String :=
    if 1/20 ≤ compression_ratio ∧ compression_ratio ≤ 2/5 then
      "✅ Good compression ratio"
    else if compression_ratio < 1/20 then "⚠️ Summary might be too brief"
    else "⚠️ Summary might be too verbose"
  -- key content indicators (lines 217-220)
  let kHit := key_indicators.any (fun kw => strContains (pyLower summary) kw)
  let kPts : Nat := if kHit then 20 else 0
  -- structure check (lines 223-225)
  let sHit := summary.data.contains '•' || summary.data.contains '-' ||
      summary.data.contains '\n'
  let sPts : Nat := if sHit then 15 else 0
  -- length check (lines 228-232)
  let lPts : Nat := if 50 ≤ summary_length then 20 else 0
  let lFb : List String :=
    if 50 ≤ summary_length then ["✅ Appropriate summary length"]
    else if summary_length < 20 then ["⚠️ Summary might be too short"]
    else []
  -- complete sentences check (lines 235-238)
  let sentences := splitOnChar '.' summary.data
  let tPts : Nat := if 2 ≤ sentences.length then 20 else 0
  let quality_score := cPts + kPts + sPts + lPts + tPts
  let overall_rating :=
    if 80 ≤ quality_score then "Excellent"
    else if 60 ≤ quality_score then "Good"
    else if 40 ≤ quality_score then "Fair"
    else "Needs Improvement"
  { quality_score := quality_score
    overall_rating := overall_rating
    compression_ratio := pyRound1 (compression_ratio * 100)
    original_length := original_length
    summary_length := summary_length
    feedback :=
      [cFb] ++ (if kHit then ["✅ Contains key content indicators"] else []) ++
      (if sHit then ["✅ Well-structured format"] else []) ++ lFb ++
      (if 2 ≤ sentences.length then ["✅ Contains complete thoughts"] else [])
    suggestions := get_improvement_suggestions quality_score compression_ratio }

/-- Outcome of the guarded evaluator: either the success dictionary or the
degraded error dictionary of `backend.py` lines 260-265, which carries only
an `error` message, a zero score and an `"Error"` rating. -/
inductive EvalOutcome where
  | ok (m : QualityMetrics)
  | degraded (error : String) (quality_score : Nat) (overall_rating : String)
deriving Repr, DecidableEq

/-- `evaluate_summary_quality` including its `try`/`except Exception` guard:
`fault = some e` models an internal exception `e` raised while scoring, in
which case the `except` branch returns the degraded dictionary instead of
propagating; `fault = none` is the normal path. -/
def evaluate_summary_quality_guarded (original_text summary : String)
    (fault : Option String) : EvalOutcome :=
  match fault with
  | some e => .degraded ("Error evaluating summary: " ++ e) 0 "Error"
  | none => .ok (evaluate_summary_quality original_text summary)

/-! ## Prompt builder (`backend.py`, `build_prompt` lines 60-120) -/

/-- `build_prompt` (`backend.py` lines 60-120): four f-string templates keyed
by the style string, each embedding the document text verbatim.  The template
texts are transcribed character-for-character from the source (including the
trailing space after "document. " in the bullet template). -/
def build_prompt (text style : String) : String :=
  if style = "bullet" then
    "Please provide a comprehensive bullet-point summary of the following document. \n\nRequirements:\n- Extract the most important key points and main ideas\n- Maintain logical flow and hierarchy\n- Use clear, actionable bullet points\n- Include relevant facts, figures, and conclusions\n- Ensure accuracy and completeness\n\nDocument to summarize:\n"
      ++ text ++ "\n\nPlease provide a well-structured bullet-point summary:"
  else if style = "abstract" then
    "Please write a professional abstract summary of the following document.\n\nRequirements:\n- 3-4 concise sentences capturing the essence\n- Include main topic, key findings, methodology (if applicable), and conclusions\n- Use academic/professional tone\n- Maintain factual accuracy\n- Highlight the most significant contributions or insights\n\nDocument to summarize:\n"
      ++ text ++ "\n\nPlease provide a professional abstract:"
  else if style = "detailed" then
    "Please provide a comprehensive, detailed summary of the following document.\n\nRequirements:\n- Cover main arguments, supporting evidence, and conclusions\n- Maintain the document's logical structure\n- Include key examples, data points, and references\n- Provide context and background information\n- Ensure thorough understanding while maintaining clarity\n- Highlight relationships between different sections/ideas\n\nDocument to summarize:\n"
      ++ text ++ "\n\nPlease provide a detailed summary:"
  else
    "Please provide a comprehensive summary of the following document.\n\nRequirements:\n- Identify main themes and key points\n- Maintain accuracy and completeness\n- Use clear, professional language\n- Highlight important conclusions and implications\n\nDocument to summarize:\n"
      ++ text ++ "\n\nPlease provide a summary:"

/-! ## A scanner model of `re.sub`

`reSubAux t atStart skip l` walks the character list left to right, exactly
as `re.sub` scans its subject.  `t atStart chunk` is the matcher for one
regex pattern: given whether the current position is a line start (for
`re.MULTILINE` patterns anchored with a caret) and the remaining text, it
returns `some (k, repl)` when the pattern matches `k > 0` characters here,
to be replaced by `repl`; scanning resumes after the match, which the
scanner realises by skipping the next `k` characters (`skip` counts the
characters of a match still to be consumed).  The line-start flag is
maintained as "previous character was a newline". -/

def reSubAux (t : Bool → List Char → Option (Nat × List Char)) :
    Bool → Nat → List Char → List Char
  | _, _, [] => []
  | _, Nat.succ k, c :: cs => reSubAux t (c == '\n') k cs
  | atStart, 0, c :: cs =>
    match t atStart (c :: cs) with
    | some (Nat.succ k2, repl) => repl ++ reSubAux t (c == '\n') k2 cs
    | some (0, _) => c :: reSubAux t (c == '\n') 0 cs
    | none => c :: reSubAux t (c == '\n') 0 cs

/-- One full `re.sub(pattern, repl, text)` pass, starting at a line start. -/
def reSub (t : Bool → List Char → Option (Nat × List Char)) (l : List Char) :
    List Char :=
  reSubAux t true 0 l

/-! ### Matchers for the patterns used by `preprocess_text` (`backend.py` 22-58) -/

/-- `re.sub(r'\s+', ' ', ...)`: a maximal whitespace run becomes one space. -/
def tryWsRun : Bool → List Char → Option (Nat × List Char) := fun _ l =>
  match l with
  | c :: _ => if pyWS c then some ((l.takeWhile pyWS).length, [' ']) else none
  | [] => none

/-- The character class kept by `re.sub(r'[^\w\s\.\,\!\?\;\:\-\(\)\[\]\{\}]', '', ...)`.
The brace characters are written via their code points. -/
def allowedPunct : List Char :=
  ['.', ',', '!', '?', ';', ':', '-', '(', ')', '[', ']', Char.ofNat 123, Char.ofNat 125]

/-- `re.sub(r'[^\w\s\.\,\!\?\;\:\-\(\)\[\]\{\}]', '', ...)`: delete one
character outside the allowed class. -/
def tryNoise : Bool → List Char → Option (Nat × List Char) := fun _ l =>
  match l with
  | c :: _ =>
      if pyWordChar c || pyWS c || allowedPunct.contains c then none else some (1, [])
  | [] => none

/-- `re.sub(r'(\w)X(\w)', r'\1R\2', ...)` for a literal middle character `x`
replaced by `r` — the two OCR fixups `| -> l` and `0 -> o`. -/
def tryOcr (x r : Char) : Bool → List Char → Option (Nat × List Char) := fun _ l =>
  match l with
  | a :: b :: c :: _ =>
      if pyWordChar a && b == x && pyWordChar c then some (3, [a, r, c]) else none
  | _ => none

/-- `re.sub(r'Page \d+', '', ...)`: the literal `Page ` followed by a maximal
digit run is deleted. -/
def tryPage : Bool → List Char → Option (Nat × List Char) := fun _ l =>
  match l with
  | 'P' :: 'a' :: 'g' :: 'e' :: ' ' :: rest =>
      let ds := rest.takeWhile Char.isDigit
      if ds.isEmpty then none else some (5 + ds.length, [])
  | _ => none

/-- `re.sub(r'^\d+\s*', '', ..., flags=re.MULTILINE)`: at a line start, a
maximal digit run and any following whitespace are deleted. -/
def tryLineNum : Bool → List Char → Option (Nat × List Char) := fun atStart l =>
  if !atStart then none
  else
    let ds := l.takeWhile Char.isDigit
    if ds.isEmpty then none
    else
      let ws := (l.drop ds.length).takeWhile pyWS
      some (ds.length + ws.length, [])

/-- The bullet characters of `re.sub(r'^\s*[•\-\*]\s*', '', ...)`. -/
def bulletChars : List Char := ['•', '-', '*']

/-- `re.sub(r'^\s*[•\-\*]\s*', '', ..., flags=re.MULTILINE)`: at a line start,
whitespace, one bullet character and trailing whitespace are deleted. -/
def tryBullet : Bool → List Char → Option (Nat × List Char) := fun atStart l =>
  if !atStart then none
  else
    let ws1 := l.takeWhile pyWS
    match l.drop ws1.length with
    | b :: rest =>
        if bulletChars.contains b then
          some (ws1.length + 1 + (rest.takeWhile pyWS).length, [])
        else none
    | [] => none

/-- `re.sub(r'\n\s*\n\s*\n+', '\n\n', ...)`: with backtracking worked out, the
pattern matches at a newline whose maximal whitespace run contains at least
three newlines, and the match extends to the last newline of that run. -/
def tryBlankLines : Bool → List Char → Option (Nat × List Char) := fun _ l =>
  match l with
  | '\n' :: _ =>
      let w := l.takeWhile pyWS
      if 3 ≤ (w.filter (· == '\n')).length then
        some (w.length - (w.reverse.takeWhile (fun c => c != '\n')).length, ['\n', '\n'])
      else none
  | _ => none

/-- `re.sub(r'([.!?])\s*([A-Z])', r'\1 \2', ...)`: sentence punctuation, any
whitespace, and an ASCII capital become punctuation-space-capital. -/
def trySentenceSpace : Bool → List Char → Option (Nat × List Char) := fun _ l =>
  match l with
  | c :: rest =>
      if c == '.' || c == '!' || c == '?' then
        let ws := rest.takeWhile pyWS
        match rest.drop ws.length with
        | u :: _ => if 'A' ≤ u && u ≤ 'Z' then some (1 + ws.length + 1, [c, ' ', u]) else none
        | [] => none
      else none
  | [] => none

/-- `preprocess_text` (`backend.py` lines 22-58): the guard for empty or
whitespace-only input, then the eight `re.sub` passes in source order, then
the final `strip()`. -/
def preprocess_text (text : String) : String :=
  if text = "" || pyStripS text = "" then ""
  else
    let t1 := reSub tryWsRun (pyStripS text).data
    let t2 := reSub tryNoise t1
    let t3 := reSub (tryOcr '|' 'l') t2
    let t4 := reSub (tryOcr '0' 'o') t3
    let t5 := reSub tryPage t4
    let t6 := reSub tryLineNum t5
    let t7 := reSub tryBullet t6
    let t8 := reSub tryBlankLines t7
    let t9 := reSub trySentenceSpace t8
    ⟨stripL t9⟩

/-! ## Format detector (`utils/file_reader.py` lines 45-65) -/

/-- `pathlib.PurePosixPath(p).name`: the final path component (empty and `.`
segments are dropped by pathlib's parsing). -/
def pathName (p : String) : String :=
  (((p.splitOn "/").filter (fun seg => seg ≠ "" ∧ seg ≠ ".")).getLast?).getD ""

/-- `pathlib.PurePosixPath(p).suffix`: the extension of the final component,
from its last dot; empty when there is no dot, when the dot is the first
character of the name, or when the name ends in a dot. -/
def pathSuffix (p : String) : String :=
  let name := (pathName p).data
  let tail := name.reverse.takeWhile (fun c => c != '.')
  if name.contains '.' ∧ tail ≠ [] ∧ tail.length + 1 ≠ name.length then
    ⟨'.' :: tail.reverse⟩
  else ""

/-- `get_file_type` (`utils/file_reader.py` lines 45-60): dispatch on the
lower-cased extension. -/
def get_file_type (file_path : String) : String :=
  let ext := pyLower (pathSuffix file_path)
  if ext = ".pdf" then "pdf"
  else if ext = ".docx" then "docx"
  else if ext = ".txt" then "txt"
  else if ext = ".html" ∨ ext = ".htm" then "html"
  else if ext = ".md" then "markdown"
  else "unknown"

/-- `is_file_supported` (`utils/file_reader.py` lines 62-65). -/
def is_file_supported (file_path : String) : Bool :=
  ["pdf", "docx", "txt", "html", "markdown"].contains (get_file_type file_path)

/-! ## DOCX extractor (`utils/file_reader.py` lines 101-114) -/

/-- `extract_text_from_docx` (`utils/file_reader.py` lines 101-114).
`docxInstalled = false` models the `ImportError` branch; `doc = .error e`
models `docx.Document` raising with message `e`; `doc = .ok paragraphs`
supplies the documents's paragraph texts in document order. -/
def extract_text_from_docx (docxInstalled : Bool)
    (doc : Except String (List String)) : String :=
  if !docxInstalled then
    "Error: python-docx is not installed. Install it with: pip install python-docx"
  else
    match doc with
    | .error e => "Error: Failed to extract text from DOCX: " ++ e
    | .ok paragraphs =>
        let text := paragraphs.foldl
          (fun acc p => if pyStripS p ≠ "" then acc ++ pyStripS p ++ "\n\n" else acc) ""
        if text ≠ "" then pyStripS text
        else "Warning: No text could be extracted from the DOCX file."

/-! ## Markdown extractor (`utils/file_reader.py` lines 150-165) -/

/-- `re.sub(r'#+\s+', '', ...)`: a maximal run of hashes followed by a
maximal non-empty whitespace run is deleted, anywhere in the text. -/
def tryHeader : Bool → List Char → Option (Nat × List Char) := fun _ l =>
  let hs := l.takeWhile (fun c => c == '#')
  if hs.isEmpty then none
  else
    let ws := (l.drop hs.length).takeWhile pyWS
    if ws.isEmpty then none else some (hs.length + ws.length, [])

/-- Finds the non-greedy two-character closer `ab` for `\*\*(.*?)\*\*`:
returns the shortest inner text (which `.` forbids to span a newline)
followed by the closer. -/
def findClose2 (a b : Char) : List Char → Option (List Char)
  | [] => none
  | [_] => none
  | c :: d :: rest =>
      if c == a && d == b then some []
      else if c == '\n' then none
      else (findClose2 a b (d :: rest)).map (c :: ·)

/-- Finds the non-greedy one-character closer for `\*(.*?)\*` and the inline
code pattern; `stopNl` is true when the inner part is matched by `.` (which
does not cross newlines) and false for a negated class like `[^\]]+`. -/
def findClose1 (a : Char) (stopNl : Bool) : List Char → Option (List Char)
  | [] => none
  | c :: cs =>
      if c == a then some []
      else if stopNl && c == '\n' then none
      else (findClose1 a stopNl cs).map (c :: ·)

/-- `re.sub(r'\*\*(.*?)\*\*', r'\1', ...)`: bold markers removed. -/
def tryBold : Bool → List Char → Option (Nat × List Char) := fun _ l =>
  match l with
  | '*' :: '*' :: rest =>
      (findClose2 '*' '*' rest).map (fun inner => (inner.length + 4, inner))
  | _ => none

/-- `re.sub(r'\*(.*?)\*', r'\1', ...)`: italic markers removed. -/
def tryItalic : Bool → List Char → Option (Nat × List Char) := fun _ l =>
  match l with
  | '*' :: rest =>
      (findClose1 '*' true rest).map (fun inner => (inner.length + 2, inner))
  | _ => none

/-- The backtick character, written via its code point. -/
def backtickChar : Char := Char.ofNat 96

/-- The `re.sub` pass deleting inline-code backticks and keeping the inner
text (`utils/file_reader.py` line 161). -/
def tryCode : Bool → List Char → Option (Nat × List Char) := fun _ l =>
  match l with
  | c :: rest =>
      if c == backtickChar then
        (findClose1 backtickChar true rest).map (fun inner => (inner.length + 2, inner))
      else none
  | [] => none

/-- `re.sub(r'\[([^\]]+)\]\([^)]+\)', r'\1', ...)`: a markdown link is
replaced by its label. -/
def tryLink : Bool → List Char → Option (Nat × List Char) := fun _ l =>
  match l with
  | '[' :: rest =>
      match findClose1 ']' false rest with
      | some label =>
          if label.isEmpty then none
          else
            match rest.drop (label.length + 1) with
            | '(' :: rest2 =>
                match findClose1 ')' false rest2 with
                | some url =>
                    if url.isEmpty then none
                    else some (1 + label.length + 1 + 1 + url.length + 1, label)
                | none => none
            | _ => none
      | none => none
  | _ => none

/-- `extract_text_from_markdown` (`utils/file_reader.py` lines 150-165):
the five `re.sub` passes in source order, then `strip()`.  The file read and
its `except` branch are not modelled; `content` is the file's text. -/
def extract_text_from_markdown (content : String) : String :=
  let t1 := reSub tryHeader content.data
  let t2 := reSub tryBold t1
  let t3 := reSub tryItalic t2
  let t4 := reSub tryCode t3
  let t5 := reSub tryLink t4
  ⟨stripL t5⟩

/-! ## PDF extractor (`utils/pdf_reader.py` lines 4-73) -/

/-- The environment a call to `extract_text_from_pdf` runs in: for each of
the two parsing libraries, `none` models the library being absent
(`ImportError`), `some (.error e)` models the library raising with message
`e`, and `some (.ok pages)` models a successful parse yielding each page's
extracted text in order.  A PyPDF2 exception message is never used by the
code, but partial text accumulated before a mid-extraction exception is not
modelled (the failed attempt contributes no text). -/
structure PdfEnv where
  pypdf2 : Option (Except String (List String))
  pypdf : Option (Except String (List String))
deriving Repr

/-- The page loop shared by both branches of `extract_text_from_pdf`
(`utils/pdf_reader.py` lines 31-37 and 56-62): non-empty page texts are
appended to the accumulator with a 1-indexed `--- Page N ---` marker. -/
def pdfPagesAux : Nat → String → List String → String
  | _, acc, [] => acc
  | n, acc, p :: ps =>
      pdfPagesAux (n + 1)
        (if p ≠ "" then
          acc ++ "\n--- Page " ++ toString (n + 1) ++ " ---\n" ++ pyStripS p ++ "\n"
        else acc) ps

/-- `extract_text_from_pdf` (`utils/pdf_reader.py` lines 4-73): the
existence and extension guards, the PyPDF2 attempt, the pypdf fallback
(note that the shared `extracted_text` accumulator carries over), and the
final no-text warning. -/
def extract_text_from_pdf (env : PdfEnv) (fileExists : Bool) (file_path : String) :
    String :=
  if !fileExists then "Error: File '" ++ file_path ++ "' not found"
  else if !(pyEndsWith (pyLower file_path) ".pdf") then
    "Error: File '" ++ file_path ++ "' is not a PDF"
  else
    let afterPyPDF2 : String :=
      match env.pypdf2 with
      | some (.ok pages) => pdfPagesAux 0 "" pages
      | _ => ""
    if pyStripS afterPyPDF2 ≠ "" then pyStripS afterPyPDF2
    else
      match env.pypdf with
      | none => "Error: Neither PyPDF2 nor pypdf is installed"
      | some (.error e) => "Error: Failed to extract text from PDF: " ++ e
      | some (.ok pages) =>
          let t := pdfPagesAux 0 afterPyPDF2 pages
          if pyStripS t ≠ "" then pyStripS t
          else "Warning: No text could be extracted from the PDF. The file might be image-based or corrupted."

/-! ## Definitions used by the claim statements -/

/-- Joining a list of strings with one blank line between consecutive
elements — the spec's description of how kept DOCX paragraphs are joined. -/
def joinBlankSpec : List String → String
  | [] => ""
  | [p] => p
  | p :: q :: rest => p ++ "\n\n" ++ joinBlankSpec (q :: rest)

/-- The extension-to-type table as the spec states it, for comparison with
`get_file_type`. -/
def extTypeSpec (ext : String) : String :=
  if ext = ".pdf" then "pdf"
  else if ext = ".docx" then "docx"
  else if ext = ".txt" then "txt"
  else if ext = ".htm" ∨ ext = ".html" then "html"
  else if ext = ".md" then "markdown"
  else "unknown"

/-- A 100-word document (the concrete input named by claim C4). -/
def wordsDoc100 : String := String.intercalate " " (List.replicate 100 "w")

/-- A 20-word summary of it (compression ratio 0.2). -/
def wordsSum20 : String := String.intercalate " " (List.replicate 20 "w")

/-- A 2-word summary of it (compression ratio 0.02). -/
def wordsSum2 : String := "w w"

/-- Whether a string contains two consecutive whitespace characters. -/
def hasWsRunAux : List Char → Bool
  | a :: b :: rest => (pyWS a && pyWS b) || hasWsRunAux (b :: rest)
  | _ => false

/-- Whether a string contains a run of 2+ consecutive whitespace characters. -/
def hasWsRun (s : String) : Bool := hasWsRunAux s.data

/-- Whether a character list contains a hash directly followed by a
whitespace character. -/
def hasHashWs : List Char → Bool
  | a :: b :: rest => (a == '#' && pyWS b) || hasHashWs (b :: rest)
  | _ => false

/-- The score contributed by the four non-compression checks of
`evaluate_summary_quality` (key indicators, structure, length, complete
sentences) — they depend only on the summary. -/
def nonCompressionScore (summary : String) : Nat :=
  (if key_indicators.any (fun kw => strContains (pyLower summary) kw) then 20 else 0) +
  (if summary.data.contains '•' || summary.data.contains '-' ||
      summary.data.contains '\n' then 15 else 0) +
  (if 50 ≤ wordCount summary then 20 else 0) +
  (if 2 ≤ (splitOnChar '.' summary.data).length then 20 else 0)

/-! # Theorems -/

/-! ## Helper lemmas about `stripL` -/

theorem stripL_eq_rdropWhile (l : List Char) :
    stripL l = List.rdropWhile pyWS (List.dropWhile pyWS l) := rfl

theorem stripL_idem (l : List Char) : stripL (stripL l) = stripL l := by
  rw [stripL_eq_rdropWhile, stripL_eq_rdropWhile]
  rcases h : List.rdropWhile pyWS (List.dropWhile pyWS l) with _ | ⟨c, cs⟩
  · simp [List.dropWhile, List.rdropWhile]
  · have hpre : (c :: cs) <+: List.dropWhile pyWS l := h ▸ List.rdropWhile_prefix _ _
    have hd : List.dropWhile pyWS l = c :: (cs ++ (List.dropWhile pyWS l).drop (cs.length + 1)) := by
      rcases hpre with ⟨t, ht⟩
      rw [← ht]; simp
    have hc : ¬ pyWS c := by
      have h0 : (List.dropWhile pyWS l).head? = some c := by rw [hd]; rfl
      intro hcon
      have := List.head?_dropWhile_not pyWS l
      rw [h0] at this
      simp [hcon] at this
    have : List.dropWhile pyWS (c :: cs) = c :: cs := by
      rw [List.dropWhile_cons_of_neg (by simpa using hc)]
    rw [this, ← h, List.rdropWhile_idempotent]

theorem pyStripS_idem (s : String) : pyStripS (pyStripS s) = pyStripS s := by
  unfold pyStripS
  exact congrArg String.mk (stripL_idem s.data)

/-! ## C1 -/

/-- C1: for every (original, summary) pair the evaluator's `quality_score`
is an integer in [0, 100] (it is a `Nat`, so 0 ≤ score holds by type), and
`overall_rating` is the deterministic threshold function of that score:
≥ 80 Excellent, ≥ 60 Good, ≥ 40 Fair, otherwise Needs Improvement. -/
theorem c1_quality_score_bounds_and_rating (o s : String) :
    (evaluate_summary_quality o s).quality_score ≤ 100 ∧
    (evaluate_summary_quality o s).overall_rating =
      (if 80 ≤ (evaluate_summary_quality o s).quality_score then "Excellent"
       else if 60 ≤ (evaluate_summary_quality o s).quality_score then "Good"
       else if 40 ≤ (evaluate_summary_quality o s).quality_score then "Fair"
       else "Needs Improvement") := by
  refine ⟨?_, ?_⟩
  · dsimp only [evaluate_summary_quality]
    split_ifs <;> norm_num
  · rfl

/-! ## C2 -/

/-- C2 counterexample: for original `"a b"` (2 words) and summary `"a"`
(1 word) the claim says the `compression_ratio` field equals 1/2, but the
code stores the ratio as a percentage rounded to one decimal, namely 50. -/
theorem c2_counterexample :
    wordCount "a b" = 2 ∧ wordCount "a" = 1 ∧
    (evaluate_summary_quality "a b" "a").compression_ratio = 50 ∧
    (evaluate_summary_quality "a b" "a").compression_ratio ≠ 1/2 := by
  have hr : compressionRatio "a b" "a" = 1/2 := by
    unfold compressionRatio
    norm_num [show wordCount "a b" = 2 from rfl, show wordCount "a" = 1 from rfl]
  have hf : (evaluate_summary_quality "a b" "a").compression_ratio = 50 := by
    show pyRound1 (compressionRatio "a b" "a" * 100) = 50
    rw [hr]
    unfold pyRound1 pyRoundHalfEven
    norm_num
  refine ⟨rfl, rfl, hf, ?_⟩
  rw [hf]
  norm_num

/-- C2 amended: the `compression_ratio` field of the returned record is the
ratio (summary word count over original word count, 0 when the original has
0 words) expressed as a percentage and rounded to one decimal place. -/
theorem c2_amended_compression_ratio_field (o s : String) :
    (evaluate_summary_quality o s).compression_ratio =
      (if 0 < wordCount o then
        pyRound1 ((wordCount s : ℚ) / (wordCount o : ℚ) * 100)
      else 0) := by
  show pyRound1 (compressionRatio o s * 100) = _
  unfold compressionRatio
  split_ifs with h
  · rfl
  · unfold pyRound1 pyRoundHalfEven
    norm_num

/-! ## C3 -/

/-- C3: the guarded evaluator never propagates an internal fault: when
scoring faults with message `e`, the `except` branch returns the degraded
record with the error message, `quality_score` 0 and `overall_rating`
`"Error"`; on the normal path it returns the success record. -/
theorem c3_guarded_never_raises (o s e : String) :
    evaluate_summary_quality_guarded o s (some e) =
      .degraded ("Error evaluating summary: " ++ e) 0 "Error" ∧
    evaluate_summary_quality_guarded o s none =
      .ok (evaluate_summary_quality o s) := ⟨rfl, rfl⟩

/-! ## C6 -/

/-- C6: the format detector is a pure function of the lower-cased path
suffix, given by the spec's extension table, and a path is supported
exactly when its detected type is not `"unknown"`. -/
theorem c6_file_type_table_and_supported (p : String) :
    get_file_type p = extTypeSpec (pyLower (pathSuffix p)) ∧
    is_file_supported p = !(get_file_type p == "unknown") := by
  constructor
  · unfold get_file_type extTypeSpec
    dsimp only
    split_ifs <;> simp_all
  · unfold is_file_supported get_file_type
    dsimp only
    split_ifs <;> rfl

/-! ## C4 -/

set_option maxRecDepth 100000 in
set_option maxHeartbeats 2000000 in
/-- C4: the +25 compression bonus is awarded exactly when the compression
ratio lies in [0.05, 0.4]; a ratio below 0.05 yields the "too brief"
warning as the first feedback line with no compression points, a ratio above
0.4 the "too verbose" warning; concretely, a 100-word original with a
20-word summary (ratio 0.2) scores the 25 bonus points with the positive
feedback line, and a 2-word summary (ratio 0.02) scores 0 and gets the
"too brief" line. -/
theorem c4_compression_bonus (o s : String) :
    ((evaluate_summary_quality o s).quality_score =
      (if 1/20 ≤ compressionRatio o s ∧ compressionRatio o s ≤ 2/5 then 25 else 0) +
        nonCompressionScore s) ∧
    (1/20 ≤ compressionRatio o s ∧ compressionRatio o s ≤ 2/5 →
      (evaluate_summary_quality o s).feedback.head? = some "✅ Good compression ratio") ∧
    (compressionRatio o s < 1/20 →
      (evaluate_summary_quality o s).feedback.head? = some "⚠️ Summary might be too brief") ∧
    (2/5 < compressionRatio o s →
      (evaluate_summary_quality o s).feedback.head? = some "⚠️ Summary might be too verbose") ∧
    compressionRatio wordsDoc100 wordsSum20 = 1/5 ∧
    (evaluate_summary_quality wordsDoc100 wordsSum20).quality_score = 25 ∧
    (evaluate_summary_quality wordsDoc100 wordsSum20).feedback.head? =
      some "✅ Good compression ratio" ∧
    compressionRatio wordsDoc100 wordsSum2 = 1/50 ∧
    (evaluate_summary_quality wordsDoc100 wordsSum2).quality_score = 0 ∧
    "⚠️ Summary might be too brief" ∈ (evaluate_summary_quality wordsDoc100 wordsSum2).feedback := by
  have h20 : compressionRatio wordsDoc100 wordsSum20 = 1/5 := by
    unfold compressionRatio
    norm_num [show wordCount wordsDoc100 = 100 by decide, show wordCount wordsSum20 = 20 by decide]
  have h2 : compressionRatio wordsDoc100 wordsSum2 = 1/50 := by
    unfold compressionRatio
    norm_num [show wordCount wordsDoc100 = 100 by decide, show wordCount wordsSum2 = 2 by decide]
  have hin : 1/20 ≤ compressionRatio wordsDoc100 wordsSum20 ∧
      compressionRatio wordsDoc100 wordsSum20 ≤ 2/5 := by rw [h20]; norm_num
  have hout : ¬(1/20 ≤ compressionRatio wordsDoc100 wordsSum2 ∧
      compressionRatio wordsDoc100 wordsSum2 ≤ 2/5) := by rw [h2]; norm_num
  have hlt : compressionRatio wordsDoc100 wordsSum2 < 1/20 := by rw [h2]; norm_num
  refine ⟨?_, ?_, ?_, ?_, h20, ?_, ?_, h2, ?_, ?_⟩
  · dsimp only [evaluate_summary_quality, nonCompressionScore]
    split_ifs <;> omega
  · intro h
    dsimp only [evaluate_summary_quality]
    rw [if_pos h]
    rfl
  · intro h
    have hno : ¬(1/20 ≤ compressionRatio o s ∧ compressionRatio o s ≤ 2/5) := by
      rintro ⟨h1, -⟩; linarith
    dsimp only [evaluate_summary_quality]
    rw [if_neg hno, if_pos h]
    rfl
  · intro h
    have hno : ¬(1/20 ≤ compressionRatio o s ∧ compressionRatio o s ≤ 2/5) := by
      rintro ⟨-, hb⟩; linarith
    have hno2 : ¬(compressionRatio o s < 1/20) := by intro hb; linarith
    dsimp only [evaluate_summary_quality]
    rw [if_neg hno, if_neg hno2]
    rfl
  · dsimp only [evaluate_summary_quality, nonCompressionScore]
    rw [if_pos hin]
    norm_num [show wordCount wordsSum20 = 20 by decide,
      show key_indicators.any (fun kw => strContains (pyLower wordsSum20) kw) = false by decide,
      show (wordsSum20.data.contains '•' || wordsSum20.data.contains '-' ||
        wordsSum20.data.contains '\n') = false by decide,
      show (splitOnChar '.' wordsSum20.data).length = 1 by decide]
    decide
  · dsimp only [evaluate_summary_quality]
    rw [if_pos hin]
    rfl
  · dsimp only [evaluate_summary_quality]
    rw [if_neg hout]
    norm_num [show wordCount wordsSum2 = 2 by decide,
      show key_indicators.any (fun kw => strContains (pyLower wordsSum2) kw) = false by decide,
      show (wordsSum2.data.contains '•' || wordsSum2.data.contains '-' ||
        wordsSum2.data.contains '\n') = false by decide,
      show (splitOnChar '.' wordsSum2.data).length = 1 by decide]
    decide
  · dsimp only [evaluate_summary_quality]
    rw [if_neg hout, if_pos hlt]
    simp

set_option maxRecDepth 100000 in
set_option maxHeartbeats 2000000 in
/-- C4 witness: the in-range hypothesis of the second conjunct of
`c4_compression_bonus` holds at the 100-word/20-word instance, and applying
the theorem there yields the positive feedback line. -/
theorem c4_compression_bonus_witness :
    (1/20 ≤ compressionRatio wordsDoc100 wordsSum20 ∧
      compressionRatio wordsDoc100 wordsSum20 ≤ 2/5) ∧
    (evaluate_summary_quality wordsDoc100 wordsSum20).feedback.head? =
      some "✅ Good compression ratio" := by
  have hin : 1/20 ≤ compressionRatio wordsDoc100 wordsSum20 ∧
      compressionRatio wordsDoc100 wordsSum20 ≤ 2/5 := by
    have h20 : compressionRatio wordsDoc100 wordsSum20 = 1/5 := by
      unfold compressionRatio
      norm_num [show wordCount wordsDoc100 = 100 by decide,
        show wordCount wordsSum20 = 20 by decide]
    rw [h20]; norm_num
  exact ⟨hin, (c4_compression_bonus wordsDoc100 wordsSum20).2.1 hin⟩

/-! ## C7 -/

/-- Two prompts with distinct headers (first `n` characters) are distinct for
every embedded text. -/
theorem prompt_ne_helper (a c t b d : String) (n : Nat)
    (ha : n ≤ a.data.length) (hc : n ≤ c.data.length)
    (hne : a.data.take n ≠ c.data.take n) :
    a ++ t ++ b ≠ c ++ t ++ d := by
  intro h
  apply hne
  have hd : a.data ++ (t.data ++ b.data) = c.data ++ (t.data ++ d.data) := by
    have h2 := congrArg String.data h
    simpa [String.data_append, List.append_assoc] using h2
  calc a.data.take n
      = (a.data ++ (t.data ++ b.data)).take n := (List.take_append_of_le_length ha).symm
    _ = (c.data ++ (t.data ++ d.data)).take n := by rw [hd]
    _ = c.data.take n := List.take_append_of_le_length hc

/-- A concatenation starting with a non-empty string is not empty. -/
theorem string_append_ne_empty (a t b : String) (h : a.data ≠ []) :
    a ++ t ++ b ≠ "" := by
  intro hcon
  apply h
  have h2 := congrArg String.data hcon
  simp [String.data_append] at h2
  exact h2.1

set_option maxRecDepth 100000 in
/-- C7: each of the three styles produces a prompt embedding the text
verbatim, the three prompts differ (their instruction headers differ within
the first 31 characters), and any unrecognized style falls back to a
non-empty generic prompt that also embeds the text verbatim. -/
theorem c7_build_prompt_styles (t sty : String) :
    (∃ x y, build_prompt t "bullet" = x ++ t ++ y) ∧
    (∃ x y, build_prompt t "abstract" = x ++ t ++ y) ∧
    (∃ x y, build_prompt t "detailed" = x ++ t ++ y) ∧
    build_prompt t "bullet" ≠ build_prompt t "abstract" ∧
    build_prompt t "bullet" ≠ build_prompt t "detailed" ∧
    build_prompt t "abstract" ≠ build_prompt t "detailed" ∧
    (sty ≠ "bullet" → sty ≠ "abstract" → sty ≠ "detailed" →
      build_prompt t sty ≠ "" ∧ ∃ x y, build_prompt t sty = x ++ t ++ y) := by
  refine ⟨⟨_, _, rfl⟩, ⟨_, _, rfl⟩, ⟨_, _, rfl⟩, ?_, ?_, ?_, ?_⟩
  · show _ ++ t ++ _ ≠ _ ++ t ++ _
    exact prompt_ne_helper _ _ t _ _ 13 (by decide) (by decide) (by decide)
  · show _ ++ t ++ _ ≠ _ ++ t ++ _
    exact prompt_ne_helper _ _ t _ _ 31 (by decide) (by decide) (by decide)
  · show _ ++ t ++ _ ≠ _ ++ t ++ _
    exact prompt_ne_helper _ _ t _ _ 13 (by decide) (by decide) (by decide)
  · intro h1 h2 h3
    have hb : build_prompt t sty =
        "Please provide a comprehensive summary of the following document.\n\nRequirements:\n- Identify main themes and key points\n- Maintain accuracy and completeness\n- Use clear, professional language\n- Highlight important conclusions and implications\n\nDocument to summarize:\n"
          ++ t ++ "\n\nPlease provide a summary:" := by
      unfold build_prompt
      rw [if_neg h1, if_neg h2, if_neg h3]
    rw [hb]
    exact ⟨string_append_ne_empty _ _ _ (by decide), _, _, rfl⟩

set_option maxRecDepth 100000 in
/-- C7 witness: the unrecognized style `"custom"` satisfies the three
side conditions, and applying `c7_build_prompt_styles` there produces a
non-empty generic prompt embedding the text `"doc"`. -/
theorem c7_build_prompt_styles_witness :
    ("custom" : String) ≠ "bullet" ∧ ("custom" : String) ≠ "abstract" ∧
    ("custom" : String) ≠ "detailed" ∧
    (build_prompt "doc" "custom" ≠ "" ∧ ∃ x y, build_prompt "doc" "custom" = x ++ "doc" ++ y) :=
  ⟨by decide, by decide, by decide,
    (c7_build_prompt_styles "doc" "custom").2.2.2.2.2.2 (by decide) (by decide) (by decide)⟩

/-! ## C10 -/

/-- `List.drop` past the `takeWhile` prefix is `dropWhile`. -/
theorem drop_length_takeWhile (p : Char → Bool) (l : List Char) :
    l.drop (l.takeWhile p).length = l.dropWhile p := by
  have h : l.takeWhile p ++ l.dropWhile p = l := List.takeWhile_append_dropWhile p l
  calc l.drop (l.takeWhile p).length
      = (l.takeWhile p ++ l.dropWhile p).drop (l.takeWhile p).length := by rw [h]
    _ = l.dropWhile p := List.drop_left _ _

theorem tryHeader_repl_empty (a : Bool) (l : List Char) (k : Nat) (repl : List Char)
    (h : tryHeader a l = some (k, repl)) : repl = [] := by
  unfold tryHeader at h
  dsimp only at h
  split_ifs at h <;> simp_all

theorem tryHeader_pos (a : Bool) (l : List Char) (k : Nat) (repl : List Char)
    (h : tryHeader a l = some (k, repl)) : 0 < k := by
  unfold tryHeader at h
  dsimp only at h
  split_ifs at h with h1 h2
  obtain ⟨hk, -⟩ := h
  have : (List.takeWhile (fun c => c == '#') l).length ≠ 0 := by
    simpa [List.isEmpty_iff, List.length_eq_zero] using h1
  omega

theorem tryHeader_resume (a : Bool) (l : List Char) (k : Nat) (repl : List Char)
    (h : tryHeader a l = some (k, repl)) :
    ∀ w, (l.drop k).head? = some w → pyWS w = false := by
  unfold tryHeader at h
  dsimp only at h
  split_ifs at h with h1 h2
  obtain ⟨rfl, -⟩ := h
  intro w hw
  rw [← List.drop_drop] at hw
  rw [drop_length_takeWhile, drop_length_takeWhile] at hw
  have hh := List.head?_dropWhile_not pyWS (l.dropWhile (fun c => c == '#'))
  rw [hw] at hh
  exact hh

theorem reSub_header_invariant : ∀ (l : List Char) (a : Bool) (k : Nat),
    hasHashWs (reSubAux tryHeader a k l) = false ∧
    (∀ w, (reSubAux tryHeader a k l).head? = some w → pyWS w = true →
      (l.drop k).head? = some w) := by
  intro l
  induction l with
  | nil => intro a k; simp [reSubAux, hasHashWs]
  | cons c cs ih =>
    intro a k
    match k with
    | Nat.succ k2 =>
      refine ⟨(ih (c == '\n') k2).1, ?_⟩
      intro w hw hws
      have := (ih (c == '\n') k2).2 w hw hws
      simpa using this
    | 0 =>
      rcases htry : tryHeader a (c :: cs) with _ | ⟨k', repl⟩
      · -- no match: emit c
        have hout : reSubAux tryHeader a 0 (c :: cs) =
            c :: reSubAux tryHeader (c == '\n') 0 cs := by
          simp [reSubAux, htry]
        constructor
        · rw [hout]
          rcases hF : reSubAux tryHeader (c == '\n') 0 cs with _ | ⟨b, rest⟩
          · simp [hasHashWs]
          · show ((c == '#' && pyWS b) || hasHashWs (b :: rest)) = false
            have hA := (ih (c == '\n') 0).1
            rw [hF] at hA
            rw [hA]
            simp only [Bool.or_false]
            by_cases hc : c = '#'
            · by_cases hb : pyWS b = true
              · -- head of output is whitespace, so head of cs is that char
                have hB := (ih (c == '\n') 0).2 b (by rw [hF]; rfl) hb
                simp only [List.drop_zero] at hB
                -- cs starts with b which is whitespace; derive a match, contradiction
                exfalso
                rcases cs with _ | ⟨d, ds⟩
                · simp at hB
                · have hbd : d = b := by simpa using hB
                  by_cases hd : d = '#'
                  · apply absurd hb
                    rw [← hbd, hd]
                    simp [pyWS]
                  · rw [hc] at htry
                    rw [hbd] at hd
                    simp [tryHeader, List.takeWhile_cons, hd, hbd, hb] at htry
              · simp [hb]
            · simp [hc]
        · intro w hw hws
          rw [hout] at hw
          simp only [List.head?_cons, Option.some.injEq] at hw
          subst hw
          rfl
      · -- match
        have hrepl := tryHeader_repl_empty _ _ _ _ htry
        have hpos := tryHeader_pos _ _ _ _ htry
        subst hrepl
        match k', hpos with
        | Nat.succ k2, _ =>
          have hout : reSubAux tryHeader a 0 (c :: cs) =
              reSubAux tryHeader (c == '\n') k2 cs := by
            simp [reSubAux, htry]
          constructor
          · rw [hout]; exact (ih (c == '\n') k2).1
          · intro w hw hws
            rw [hout] at hw
            have hB := (ih (c == '\n') k2).2 w hw hws
            have hres := tryHeader_resume _ _ _ _ htry w (by simpa using hB)
            rw [hres] at hws
            exact absurd hws (by simp)

set_option maxRecDepth 100000 in
/-- C10: the markdown header pass removes every occurrence of hashes
followed by whitespace anywhere in the text (its output never contains a
hash directly followed by a whitespace character), not only at line starts:
the mid-line sequence in `"a # b"` is deleted, yielding `"a b"`. -/
theorem c10_markdown_midline_headers :
    (∀ l : List Char, hasHashWs (reSub tryHeader l) = false) ∧
    hasHashWs ("a # b").data = true ∧
    extract_text_from_markdown "a # b" = "a b" := by
  refine ⟨fun l => (reSub_header_invariant l true 0).1, by decide, by decide⟩

/-! ## C9 -/

set_option maxRecDepth 100000 in
/-- C9 counterexample: `preprocess_text "a @ b"` returns `"a  b"`, which
contains a run of two consecutive spaces — the noise-character removal pass
runs after the whitespace collapse and leaves the two spaces that surrounded
the deleted `@` adjacent. -/
theorem c9_counterexample :
    preprocess_text "a @ b" = "a  b" ∧ hasWsRun (preprocess_text "a @ b") = true := by
  constructor <;> decide

/-- C9 amended: the output of `preprocess_text` is trimmed at both ends, and
empty or whitespace-only input yields the empty string; whitespace runs are
collapsed to single spaces only in the initial normalization pass, and later
removal passes may leave two adjacent spaces in the output. -/
theorem c9_amended_trimmed_and_empty (s : String) :
    preprocess_text s = pyStripS (preprocess_text s) ∧
    preprocess_text "" = "" ∧ preprocess_text "   " = "" := by
  refine ⟨?_, by decide, by decide⟩
  unfold preprocess_text
  split_ifs with h
  · rfl
  · dsimp only
    exact congrArg String.mk (stripL_idem _).symm

/-! ## C8 -/

theorem dropWhile_append_of_ne_nil (p : Char → Bool) (x y : List Char)
    (h : x.dropWhile p ≠ []) :
    (x ++ y).dropWhile p = x.dropWhile p ++ y := by
  induction x with
  | nil => simp at h
  | cons c cr ih =>
    by_cases hc : p c
    · rw [List.dropWhile_cons_of_pos hc] at h ⊢
      rw [List.cons_append, List.dropWhile_cons_of_pos hc]
      exact ih h
    · rw [List.dropWhile_cons_of_neg hc]
      rw [List.cons_append, List.dropWhile_cons_of_neg hc]

theorem rdropWhile_append_of_ne_nil (p : Char → Bool) (a b : List Char)
    (h : b.rdropWhile p ≠ []) :
    (a ++ b).rdropWhile p = a ++ b.rdropWhile p := by
  unfold List.rdropWhile at h ⊢
  have hne : b.reverse.dropWhile p ≠ [] := by
    intro hcon; rw [hcon] at h; simp at h
  rw [List.reverse_append, dropWhile_append_of_ne_nil p _ _ hne,
    List.reverse_append, List.reverse_reverse]

theorem stripL_eq_self_parts (l : List Char) (h : stripL l = l) :
    l.dropWhile pyWS = l ∧ l.rdropWhile pyWS = l := by
  have hsuf : l.dropWhile pyWS <:+ l := List.dropWhile_suffix pyWS
  have hpre : (l.dropWhile pyWS).rdropWhile pyWS <+: l.dropWhile pyWS :=
    List.rdropWhile_prefix pyWS (l.dropWhile pyWS)
  have hlen1 : ((l.dropWhile pyWS).rdropWhile pyWS).length ≤ (l.dropWhile pyWS).length :=
    hpre.length_le
  have hlen2 : (l.dropWhile pyWS).length ≤ l.length := hsuf.length_le
  have hst : stripL l = (l.dropWhile pyWS).rdropWhile pyWS := stripL_eq_rdropWhile l
  have hlen3 : (stripL l).length = l.length := by rw [h]
  rw [hst] at hlen3
  have hdl : l.dropWhile pyWS = l := hsuf.eq_of_length (by omega)
  refine ⟨hdl, ?_⟩
  have := hst.symm.trans h
  rwa [hdl] at this

theorem head_not_ws_of_dropWhile_eq_self (p : Char → Bool) (c : Char) (cs : List Char)
    (h : (c :: cs).dropWhile p = c :: cs) : p c = false := by
  by_cases hc : p c
  · rw [List.dropWhile_cons_of_pos hc] at h
    have : (cs.dropWhile p).length ≤ cs.length := (List.dropWhile_suffix p).length_le
    have h2 := congrArg List.length h
    simp at h2
    omega
  · simpa using hc

theorem joinBlankSpec_data (k : String) (r : List String) :
    ∃ rest, (joinBlankSpec (k :: r)).data = k.data ++ rest := by
  cases r with
  | nil => exact ⟨[], by simp [joinBlankSpec]⟩
  | cons k2 r2 =>
      refine ⟨("\n\n" ++ joinBlankSpec (k2 :: r2)).data, ?_⟩
      show (k ++ "\n\n" ++ joinBlankSpec (k2 :: r2)).data = _
      simp [String.data_append]

theorem stripL_join_blank : ∀ (ks : List String),
    (∀ k ∈ ks, k.data ≠ [] ∧ stripL k.data = k.data) → ks ≠ [] →
    stripL ((joinBlankSpec ks).data ++ ['\n', '\n']) = (joinBlankSpec ks).data := by
  intro ks
  induction ks with
  | nil => intro _ h; simp at h
  | cons k t ih =>
    intro hk _
    obtain ⟨hk1, hk2⟩ := hk k (by simp)
    obtain ⟨hdl, hrl⟩ := stripL_eq_self_parts _ hk2
    rcases hcd : k.data with _ | ⟨c, csk⟩
    · exact absurd hcd hk1
    have hcws : pyWS c = false :=
      head_not_ws_of_dropWhile_eq_self pyWS c csk (by rw [← hcd, hdl])
    cases t with
    | nil =>
      show stripL (k.data ++ ['\n', '\n']) = k.data
      have h1 : (k.data ++ ['\n', '\n']).dropWhile pyWS = k.data ++ ['\n', '\n'] := by
        rw [hcd, List.cons_append, List.dropWhile_cons_of_neg (by simp [hcws])]
      rw [stripL_eq_rdropWhile, h1,
        show k.data ++ ['\n', '\n'] = (k.data ++ ['\n']) ++ ['\n'] by simp,
        List.rdropWhile_concat_pos pyWS _ '\n' (by decide),
        List.rdropWhile_concat_pos pyWS _ '\n' (by decide), hrl]
    | cons k2 r =>
      have hk2' : ∀ x ∈ (k2 :: r), x.data ≠ [] ∧ stripL x.data = x.data :=
        fun x hx => hk x (by simp [hx])
      have ihJ := ih hk2' (by simp)
      obtain ⟨hk21, hk22⟩ := hk2' k2 (by simp)
      obtain ⟨hdl2, -⟩ := stripL_eq_self_parts _ hk22
      obtain ⟨rest, hJd⟩ := joinBlankSpec_data k2 r
      rcases hcd2 : k2.data with _ | ⟨c2, csk2⟩
      · exact absurd hcd2 hk21
      have hcws2 : pyWS c2 = false :=
        head_not_ws_of_dropWhile_eq_self pyWS c2 csk2 (by rw [← hcd2, hdl2])
      have hJhead : (joinBlankSpec (k2 :: r)).data = c2 :: (csk2 ++ rest) := by
        rw [hJd, hcd2]; simp
      have hJdrop : ((joinBlankSpec (k2 :: r)).data ++ ['\n', '\n']).dropWhile pyWS =
          (joinBlankSpec (k2 :: r)).data ++ ['\n', '\n'] := by
        rw [hJhead, List.cons_append, List.dropWhile_cons_of_neg (by simp [hcws2])]
      have hJr : ((joinBlankSpec (k2 :: r)).data ++ ['\n', '\n']).rdropWhile pyWS =
          (joinBlankSpec (k2 :: r)).data := by
        have h3 := ihJ
        rw [stripL_eq_rdropWhile, hJdrop] at h3
        exact h3
      have hsplit : (joinBlankSpec (k :: k2 :: r)).data =
          (k.data ++ ['\n', '\n']) ++ (joinBlankSpec (k2 :: r)).data := by
        show (k ++ "\n\n" ++ joinBlankSpec (k2 :: r)).data = _
        simp [String.data_append]
      rw [hsplit, stripL_eq_rdropWhile]
      have hfront : ((((k.data ++ ['\n', '\n']) ++ (joinBlankSpec (k2 :: r)).data) ++
          ['\n', '\n']).dropWhile pyWS) =
          ((k.data ++ ['\n', '\n']) ++ (joinBlankSpec (k2 :: r)).data) ++ ['\n', '\n'] := by
        rw [hcd]
        simp only [List.cons_append]
        rw [List.dropWhile_cons_of_neg (by simp [hcws])]
      rw [hfront]
      have hJne : (joinBlankSpec (k2 :: r)).data ≠ [] := by rw [hJhead]; simp
      rw [show ((k.data ++ ['\n', '\n']) ++ (joinBlankSpec (k2 :: r)).data) ++ ['\n', '\n'] =
          (k.data ++ ['\n', '\n']) ++ ((joinBlankSpec (k2 :: r)).data ++ ['\n', '\n']) by
        simp [List.append_assoc]]
      rw [rdropWhile_append_of_ne_nil pyWS _ _ (by rw [hJr]; exact hJne), hJr]

theorem docx_foldl_eq (ps : List String) : ∀ acc : String,
    ps.foldl (fun acc p => if pyStripS p ≠ "" then acc ++ pyStripS p ++ "\n\n" else acc) acc =
      acc ++ (if ((ps.map pyStripS).filter (fun x => x ≠ "")) = [] then ""
        else joinBlankSpec ((ps.map pyStripS).filter (fun x => x ≠ "")) ++ "\n\n") := by
  induction ps with
  | nil => intro acc; simp
  | cons p t ih =>
    intro acc
    by_cases hp : pyStripS p = ""
    · rw [List.foldl_cons, if_neg (by simp [hp])]
      rw [ih]
      simp [hp]
    · rw [List.foldl_cons, if_pos (by simpa using hp)]
      rw [ih]
      have hcons : ((p :: t).map pyStripS).filter (fun x => x ≠ "") =
          pyStripS p :: ((t.map pyStripS).filter (fun x => x ≠ "")) := by simp [hp]
      rw [hcons]
      rcases hT : (t.map pyStripS).filter (fun x => x ≠ "") with _ | ⟨q, r⟩
      · simp [joinBlankSpec, String.append_assoc]
      · rw [show joinBlankSpec (pyStripS p :: q :: r) =
            pyStripS p ++ "\n\n" ++ joinBlankSpec (q :: r) from rfl]
        simp [String.append_assoc]

/-- C8: for every DOCX paragraph list, when at least one paragraph has
non-empty trimmed text, extraction returns exactly the trimmed kept
paragraphs, in document order, joined with one blank line between
consecutive ones; the concrete document ["Title", "", "Body text."] yields
"Title\n\nBody text.". -/
theorem c8_docx_paragraph_join (ps : List String) :
    (((ps.map pyStripS).filter (fun x => x ≠ "")) ≠ [] →
      extract_text_from_docx true (.ok ps) =
        joinBlankSpec ((ps.map pyStripS).filter (fun x => x ≠ ""))) ∧
    extract_text_from_docx true (.ok ["Title", "", "Body text."]) = "Title\n\nBody text." := by
  constructor
  · intro hne
    unfold extract_text_from_docx
    dsimp only
    rw [docx_foldl_eq, if_neg hne]
    have hks : ∀ k ∈ (ps.map pyStripS).filter (fun x => x ≠ ""),
        k.data ≠ [] ∧ stripL k.data = k.data := by
      intro k hkmem
      rw [List.mem_filter] at hkmem
      obtain ⟨hmap, hkne⟩ := hkmem
      obtain ⟨p, -, hp⟩ := List.mem_map.mp hmap
      have hkne2 : k ≠ "" := by simpa using hkne
      constructor
      · simpa [String.ext_iff] using hkne2
      · rw [← hp]
        show stripL (pyStripS p).data = (pyStripS p).data
        exact stripL_idem p.data
    have hstrip := stripL_join_blank _ hks hne
    have hdata : (("" : String) ++
        (joinBlankSpec ((ps.map pyStripS).filter (fun x => x ≠ "")) ++ "\n\n")).data =
        (joinBlankSpec ((ps.map pyStripS).filter (fun x => x ≠ ""))).data ++ ['\n', '\n'] := by
      simp [String.data_append]
    have htne : ("" : String) ++
        (joinBlankSpec ((ps.map pyStripS).filter (fun x => x ≠ "")) ++ "\n\n") ≠ "" := by
      intro hcon
      have hcon2 := congrArg String.data hcon
      rw [hdata] at hcon2
      simp at hcon2
    rw [if_pos htne]
    refine String.ext ?_
    show stripL (("" ++ (joinBlankSpec _ ++ "\n\n")).data) = _
    rw [hdata, hstrip]
  · decide

/-- C8 witness: the concrete paragraph list of the claim has a non-empty
kept list, and applying `c8_docx_paragraph_join` there gives the blank-line
join of the kept paragraphs. -/
theorem c8_docx_paragraph_join_witness :
    ((["Title", "", "Body text."].map pyStripS).filter (fun x => x ≠ "") ≠ []) ∧
    extract_text_from_docx true (.ok ["Title", "", "Body text."]) =
      joinBlankSpec ((["Title", "", "Body text."].map pyStripS).filter (fun x => x ≠ "")) :=
  ⟨by decide, (c8_docx_paragraph_join ["Title", "", "Body text."]).1 (by decide)⟩

/-! ## C5 -/

/-- C5: evaluating `extract_text_from_pdf` on an existing `.pdf` file whose
pages all yield empty text.  With PyPDF2 installed and parsing successfully
but pypdf absent, the code returns the (factually wrong) "Neither PyPDF2
nor pypdf is installed" error instead of the no-text warning that the claim
and the function's own final line prescribe; only when the pypdf fallback is
also available does the warning appear. -/
theorem c5_pdf_empty_pages_eval :
    extract_text_from_pdf ⟨some (.ok ["", ""]), none⟩ true "doc.pdf" =
      "Error: Neither PyPDF2 nor pypdf is installed" ∧
    extract_text_from_pdf ⟨some (.ok ["", ""]), some (.ok ["", ""])⟩ true "doc.pdf" =
      "Warning: No text could be extracted from the PDF. The file might be image-based or corrupted." := by
  constructor <;> decide
